import Mathlib

/-!
Shallow embedding of the DeedleFake/etf Erlang External Term Format codec.

The decoder (`Decoder.Decode` in the Go source) is embedded as `Etf.decodeF`,
a fuel-indexed function over a byte stream modelled as `List Nat` (each
element a byte value).  Go's named-return convention — `Decode` returns a
`(term, err)` pair in which `term` may be non-nil even when `err` is set —
is modelled faithfully by `DRes.term` carrying both a term and an optional
error.  Go runtime panics (failed type assertions, out-of-range indexing,
nil-pointer dereference) are modelled by the distinguished result
`DRes.panic`.  The writer functions (`writeAtom`, `writeBigInt`, `writeInt`,
`writeBool`, `writePid`) are embedded as pure functions returning the bytes
they emit, or an encode error.
-/

namespace Etf

/-- Decode-side errors of the Go source: `io` read errors on a short stream
(`io.EOF` / `io.ErrUnexpectedEOF`, merged as `eof`) and `ErrUnknownTerm`. -/
inductive Err where
  | eof
  | unknownTerm (tag : Nat)
  deriving Repr, DecidableEq

/-- Encode-side errors (`fmt.Errorf` sites and `ErrUnknownType`). -/
inductive EncErr where
  | atomTooBig (n : Nat)
  | bigIntTooBig (n : Nat)
  deriving Repr, DecidableEq

/-- `type Pid struct { Node Atom; Id uint32; Serial uint32; Creation byte }`.
Atoms are byte strings, modelled as `List Nat`. -/
structure Pid where
  node : List Nat
  id : Nat
  serial : Nat
  creation : Nat
  deriving Repr, DecidableEq

/-- `type Port struct { Node Atom; Id uint32; Creation byte }`. -/
structure Port where
  node : List Nat
  id : Nat
  creation : Nat
  deriving Repr, DecidableEq

/-- `type Ref struct { Node Atom; Creation byte; Id []uint32 }`. -/
structure Ref where
  node : List Nat
  creation : Nat
  id : List Nat
  deriving Repr, DecidableEq

/-- The dynamic `Term` (`type Term any`) as materialized by the decoder.
`vnil` is Go's nil interface value (the zero value of an unset `Term`
variable or of an unfilled `Tuple`/`FreeVars` slot).  `int` is Go's 64-bit
`int`; `bigint` a `*big.Int` that did not narrow; floats are carried as
their IEEE 754 bit pattern (`math.Float64frombits` input) since no claim
inspects float arithmetic; `floatLegacy` carries the raw 31-byte payload of
the legacy FLOAT tag (the `fmt.Sscanf` decimal parse is external library
behaviour, not modelled bit-for-bit; no claim exercises it). -/
inductive Term where
  | vnil
  | bool (b : Bool)
  | int (n : Int)
  | bigint (z : Int)
  | float (bits : Nat)
  | floatLegacy (payload : List Nat)
  | atom (s : List Nat)
  | str (s : List Nat)
  | binary (bs : List Nat)
  | tuple (ts : List Term)
  | list (ts : List Term)
  | pid (p : Pid)
  | port (p : Port)
  | ref (r : Ref)
  | exportT (module : List Nat) (function : List Nat) (arity : Nat)
  | funT (arity : Nat) (unique : List Nat) (index : Nat) (free : Nat)
      (module : List Nat) (oldIndex : Nat) (oldUnique : Nat) (p : Pid)
      (freeVars : List Term)
  deriving Repr

/-- `type Context struct { atomCache [2048]*string; currentCache []*string }`.
Only `currentCache` is read by the decoder; a slot holds `none` for a nil
pointer and `some s` for a pointer to the atom's bytes. -/
structure Context where
  currentCache : List (Option (List Nat))
  deriving Repr, DecidableEq

/-- What the decoder is asked to do: decode one term (`Decoder.Decode`), or
run one of the source's child-decoding loops for `k` slots. -/
inductive Task where
  | one (bs : List Nat)
  | many (k : Nat) (bs : List Nat)
  deriving Repr

/-- Result of a decoding task.  `term t err rest` is the Go pair
`(term, err)` plus the remaining stream; `items` is the result of a child
loop (slots, first error if any, remaining stream); `panic` is a Go runtime
panic; `nofuel` only arises when the fuel bound is exhausted. -/
inductive DRes where
  | term (t : Term) (err : Option Err) (rest : List Nat)
  | items (ts : List Term) (err : Option Err) (rest : List Nat)
  | panic
  | nofuel
  deriving Repr

/-- Big-endian value of a byte list (`encoding/binary.BigEndian`). -/
def beVal (bs : List Nat) : Nat := bs.foldl (fun a b => a * 256 + b) 0

/-- The four big-endian bytes of a `uint32` value, as written by the Go
pattern `byte(x >> 24), byte(x >> 16), byte(x >> 8), byte(x)`. -/
def be4U (u : Nat) : List Nat :=
  [u / 16777216 % 256, u / 65536 % 256, u / 256 % 256, u % 256]

/-- `io.ReadFull` into a fresh zero-initialized buffer of `k` bytes: on a
short stream the buffer keeps its zero tail and an error is reported, with
the stream fully consumed. -/
def readPad (k : Nat) (bs : List Nat) : List Nat × Option Err × List Nat :=
  if k ≤ bs.length then (bs.take k, none, bs.drop k)
  else (bs ++ List.replicate (k - bs.length) 0, some .eof, [])

/-- `bufio.Reader.ReadByte` (`ruint8`). -/
def ruint8 (bs : List Nat) : Nat × Option Err × List Nat :=
  match bs with
  | [] => (0, some .eof, [])
  | b :: rest => (b, none, rest)

/-- Fuel-indexed little-endian base-256 digit extraction (structural on
the fuel so that it evaluates definitionally); `fuel = n` always
suffices because each division by 256 strictly shrinks the argument. -/
def natBytesLEF : Nat → Nat → List Nat
  | 0, _ => []
  | _ + 1, 0 => []
  | f + 1, n + 1 => ((n + 1) % 256) :: natBytesLEF f ((n + 1) / 256)

/-- The little-endian base-256 digits of a natural number (no digits for 0).
`(natBytesLE n).reverse` is the minimal big-endian form that Go's
`big.Int.Bytes` returns. -/
def natBytesLE (n : Nat) : List Nat := natBytesLEF n n

/-- Go `big.Int.Bytes`: the minimal big-endian byte representation of the
absolute value (empty for zero). -/
def bigIntBytes (n : Nat) : List Nat := (natBytesLE n).reverse

/-- `var bTrue = []byte("true")`. -/
def bTrue : List Nat := [116, 114, 117, 101]

/-- `var bFalse = []byte("false")`. -/
def bFalse : List Nat := [102, 97, 108, 115, 101]

/-- `newAtom`: the atoms "true" and "false" become booleans, everything else
stays an atom. -/
def newAtom (b : List Nat) : Term :=
  if b = bTrue then .bool true
  else if b = bFalse then .bool false
  else .atom b

/-- The narrowing at the end of `readBigInt`: `v.Int64()` followed by the
two `Cmp` round-trip checks.  On a 64-bit host Go's `int` has the full
`int64` range, so the first check (`int(v64)`) succeeds exactly when `v`
fits a signed 64-bit integer and the second branch is unreachable; when `v`
is out of range, `big.Int.Int64` yields some in-range value, so both `Cmp`
checks fail and the big integer is returned unchanged. -/
def narrowBig (v : Int) : Term :=
  if -9223372036854775808 ≤ v ∧ v ≤ 9223372036854775807 then .int v
  else .bigint v

/-- `readBigInt` after its payload read succeeded: reverse the (little-
endian) payload in place, `SetBytes` as big-endian, negate on a nonzero
sign byte, then narrow. -/
def readBigIntVal (payload : List Nat) (sign : Nat) : Term :=
  let mag : Int := (beVal payload.reverse : Nat)
  narrowBig (if sign ≠ 0 then -mag else mag)

/-- The `ruint32` loop that fills `ref.Id` in the NEW_REFERENCE branch; on
a read error the Go code returns immediately (with the nil term). -/
def readU32s : Nat → List Nat → List Nat × Option Err × List Nat
  | 0, bs => ([], none, bs)
  | k + 1, bs =>
    let (w, e1, r1) := readPad 4 bs
    match e1 with
    | some e => ([], some e, r1)
    | none =>
      let (ws, e2, r2) := readU32s k r1
      (beVal w :: ws, e2, r2)

/-- `Decoder.Decode`, fuel-indexed.  `.one bs` decodes one term from `bs`
(the body of `Decode`); `.many k bs` runs the source's child-decoding loop
for `k` slots (`make(Tuple, arity)` / `make(List, n+1)` / `FreeVars`
filling: the failing slot still receives the child's term, the remaining
slots stay nil, and the first error is reported).  Tag bytes are the
`ett*` constants of the source (ASCII codes). -/
def decodeF (ctx : Context) : Nat → Task → DRes
  | 0, _ => .nofuel
  | f + 1, .one bs =>
    match bs with
    | [] => .term .vnil (some .eof) []
    | t :: rest =>
      if t = 131 then
        -- EtVersion: skip the version byte and decode the actual term
        decodeF ctx f (.one rest)
      else if t = 100 ∨ t = 118 then
        -- ettAtom, ettAtomUTF8: u16 length, then payload; the term is
        -- built from the (possibly zero-padded) buffer even on a short read
        let (lenb, e1, r1) := readPad 2 rest
        match e1 with
        | some e => .term .vnil (some e) r1
        | none =>
          let (p, e2, r2) := readPad (beVal lenb) r1
          .term (newAtom p) e2 r2
      else if t = 115 ∨ t = 119 then
        -- ettSmallAtom, ettSmallAtomUTF8
        match ruint8 rest with
        | (_, some e, r1) => .term .vnil (some e) r1
        | (sz, none, r1) =>
          let (p, e2, r2) := readPad sz r1
          .term (newAtom p) e2 r2
      else if t = 109 then
        -- ettBinary: u32 length + payload
        let (lenb, e1, r1) := readPad 4 rest
        match e1 with
        | some e => .term .vnil (some e) r1
        | none =>
          let (p, e2, r2) := readPad (beVal lenb) r1
          .term (.binary p) e2 r2
      else if t = 107 then
        -- ettString: u16 length + payload
        let (lenb, e1, r1) := readPad 2 rest
        match e1 with
        | some e => .term .vnil (some e) r1
        | none =>
          let (p, e2, r2) := readPad (beVal lenb) r1
          .term (.str p) e2 r2
      else if t = 99 then
        -- ettFloat: 31 bytes of ASCII (the Sscanf parse itself is external
        -- library behaviour; the raw payload is carried)
        let (p, e1, r1) := readPad 31 rest
        match e1 with
        | some e => .term .vnil (some e) r1
        | none => .term (.floatLegacy p) none r1
      else if t = 70 then
        -- ettNewFloat: 8 IEEE 754 bytes, big-endian
        let (p, e1, r1) := readPad 8 rest
        match e1 with
        | some e => .term .vnil (some e) r1
        | none => .term (.float (beVal p)) none r1
      else if t = 97 then
        -- ettSmallInteger: one byte; the term is assigned even on EOF
        match ruint8 rest with
        | (x, e, r1) => .term (.int (x : Int)) e r1
      else if t = 98 then
        -- ettInteger: binary.Read of an i32; on a short read the target
        -- keeps its zero value
        if 4 ≤ rest.length then
          let u := beVal (rest.take 4)
          .term (.int (if u < 2147483648 then (u : Int) else (u : Int) - 4294967296))
            none (rest.drop 4)
        else .term (.int 0) (some .eof) []
      else if t = 110 then
        -- ettSmallBig: u8 size + u8 sign + size payload bytes
        let (hd, e1, r1) := readPad 2 rest
        match e1 with
        | some e => .term .vnil (some e) r1
        | none =>
          let (p, e2, r2) := readPad (hd.getD 0 0) r1
          match e2 with
          | some e => .term .vnil (some e) r2
          | none => .term (readBigIntVal p (hd.getD 1 0)) none r2
      else if t = 111 then
        -- ettLargeBig: u32 size + u8 sign + size payload bytes
        let (hd, e1, r1) := readPad 5 rest
        match e1 with
        | some e => .term .vnil (some e) r1
        | none =>
          let (p, e2, r2) := readPad (beVal (hd.take 4)) r1
          match e2 with
          | some e => .term .vnil (some e) r2
          | none => .term (readBigIntVal p (hd.getD 4 0)) none r2
      else if t = 106 then
        -- ettNil: term = List{}
        .term (.list []) none rest
      else if t = 103 then
        -- ettPid: node term, then 9 bytes (id u32, serial u32, creation);
        -- `pid.Node = node.(Atom)` panics when the node is not an atom
        match decodeF ctx f (.one rest) with
        | .panic => .panic
        | .nofuel => .nofuel
        | .items _ _ _ => .nofuel
        | .term node e r1 =>
          match e with
          | some e => .term .vnil (some e) r1
          | none =>
            let (b9, e2, r2) := readPad 9 r1
            match e2 with
            | some e2 => .term .vnil (some e2) r2
            | none =>
              match node with
              | .atom s =>
                .term (.pid ⟨s, beVal (b9.take 4), beVal ((b9.drop 4).take 4),
                  b9.getD 8 0⟩) none r2
              | _ => .panic
      else if t = 114 then
        -- ettNewRef: u16 count, node, creation, count u32 ids;
        -- `ref.Node = node.(Atom)` panics when the node is not an atom
        let (nidb, e1, r1) := readPad 2 rest
        match e1 with
        | some e => .term .vnil (some e) r1
        | none =>
          match decodeF ctx f (.one r1) with
          | .panic => .panic
          | .nofuel => .nofuel
          | .items _ _ _ => .nofuel
          | .term node e r2 =>
            match e with
            | some e => .term .vnil (some e) r2
            | none =>
              match ruint8 r2 with
              | (_, some e, r3) => .term .vnil (some e) r3
              | (creation, none, r3) =>
                match node with
                | .atom s =>
                  match readU32s (beVal nidb) r3 with
                  | (ids, none, r4) => .term (.ref ⟨s, creation, ids⟩) none r4
                  | (_, some e, r4) => .term .vnil (some e) r4
                | _ => .panic
      else if t = 101 then
        -- ettRef (legacy): node, one u32 id, then a ReadFull into the
        -- never-allocated buffer `b` (a no-op) followed by `b[0]`, which
        -- always panics; the node type assertion can panic first
        match decodeF ctx f (.one rest) with
        | .panic => .panic
        | .nofuel => .nofuel
        | .items _ _ _ => .nofuel
        | .term node e r1 =>
          match e with
          | some e => .term .vnil (some e) r1
          | none =>
            match node with
            | .atom _ =>
              let (_, e2, r2) := readPad 4 r1
              match e2 with
              | some e2 => .term .vnil (some e2) r2
              | none => .panic
            | _ => .panic
      else if t = 104 then
        -- ettSmallTuple: `term = tuple` runs even when the loop broke with
        -- an error, exposing the partially filled tuple
        match ruint8 rest with
        | (_, some e, r1) => .term .vnil (some e) r1
        | (arity, none, r1) =>
          match decodeF ctx f (.many arity r1) with
          | .items ts e r2 => .term (.tuple ts) e r2
          | .panic => .panic
          | _ => .nofuel
      else if t = 105 then
        -- ettLargeTuple
        let (ab, e1, r1) := readPad 4 rest
        match e1 with
        | some e => .term .vnil (some e) r1
        | none =>
          match decodeF ctx f (.many (beVal ab) r1) with
          | .items ts e r2 => .term (.tuple ts) e r2
          | .panic => .panic
          | _ => .nofuel
      else if t = 108 then
        -- ettList: u32 n, then n+1 terms; a child error returns the nil
        -- term; the tail slot is dropped whenever it is a List value
        let (nb, e1, r1) := readPad 4 rest
        match e1 with
        | some e => .term .vnil (some e) r1
        | none =>
          match decodeF ctx f (.many (beVal nb + 1) r1) with
          | .items ts e r2 =>
            match e with
            | some e => .term .vnil (some e) r2
            | none =>
              match ts.getD (beVal nb) .vnil with
              | .list _ => .term (.list (ts.take (beVal nb))) none r2
              | _ => .term (.list ts) none r2
          | .panic => .panic
          | _ => .nofuel
      else if t = 77 then
        -- ettBitBinary: u32 length + u8 bits + payload; the last byte is
        -- right-shifted by (8 - bits) in uint8 arithmetic; a zero length
        -- panics on `b[len(b)-1]`
        let (lb, e1, r1) := readPad 4 rest
        match e1 with
        | some e => .term .vnil (some e) r1
        | none =>
          match ruint8 r1 with
          | (_, some e, r2) => .term .vnil (some e) r2
          | (bits, none, r2) =>
            let (p, e3, r3) := readPad (beVal lb) r2
            if beVal lb = 0 then .panic
            else
              .term (.binary (p.dropLast ++ [p.getLast?.getD 0 >>> ((8 + 256 - bits) % 256)]))
                e3 r3
      else if t = 113 then
        -- ettExport: module, function, arity; the two type assertions
        -- panic on non-atoms
        match decodeF ctx f (.one rest) with
        | .panic => .panic
        | .nofuel => .nofuel
        | .items _ _ _ => .nofuel
        | .term m e1 r1 =>
          match e1 with
          | some e => .term .vnil (some e) r1
          | none =>
            match decodeF ctx f (.one r1) with
            | .panic => .panic
            | .nofuel => .nofuel
            | .items _ _ _ => .nofuel
            | .term fn e2 r2 =>
              match e2 with
              | some e => .term .vnil (some e) r2
              | none =>
                match ruint8 r2 with
                | (_, some e, r3) => .term .vnil (some e) r3
                | (a, none, r3) =>
                  match m, fn with
                  | .atom ms, .atom fs => .term (.exportT ms fs a) none r3
                  | _, _ => .panic
      else if t = 112 then
        -- ettNewFun: size, arity, unique, index, free are read with their
        -- errors discarded; the four child decodes discard their errors
        -- too; only the FreeVars loop error is kept; the four type
        -- assertions panic on a mismatch (including nil children)
        let (_, _, r1) := readPad 4 rest
        let (arity, _, r2) := ruint8 r1
        let (uniq, _, r3) := readPad 16 r2
        let (idxb, _, r4) := readPad 4 r3
        let (freeb, _, r5) := readPad 4 r4
        match decodeF ctx f (.one r5) with
        | .panic => .panic
        | .nofuel => .nofuel
        | .items _ _ _ => .nofuel
        | .term m _ r6 =>
          match decodeF ctx f (.one r6) with
          | .panic => .panic
          | .nofuel => .nofuel
          | .items _ _ _ => .nofuel
          | .term oldi _ r7 =>
            match decodeF ctx f (.one r7) with
            | .panic => .panic
            | .nofuel => .nofuel
            | .items _ _ _ => .nofuel
            | .term oldu _ r8 =>
              match decodeF ctx f (.one r8) with
              | .panic => .panic
              | .nofuel => .nofuel
              | .items _ _ _ => .nofuel
              | .term pd _ r9 =>
                match decodeF ctx f (.many (beVal freeb) r9) with
                | .panic => .panic
                | .nofuel => .nofuel
                | .term _ _ _ => .nofuel
                | .items fvs e r10 =>
                  match m, oldi, oldu, pd with
                  | .atom ms, .int oi, .int ou, .pid p =>
                    .term (.funT arity uniq (beVal idxb) (beVal freeb) ms
                      (oi % 4294967296).toNat (ou % 4294967296).toNat p fvs) e r10
                  | _, _, _, _ => .panic
      else if t = 117 then
        -- ettFun: free count, pid, module, old-index, old-unique (child
        -- errors discarded), FreeVars loop (error kept), assertions;
        -- Arity/Unique/Index keep the Function zero values
        let (freeb, _, r1) := readPad 4 rest
        match decodeF ctx f (.one r1) with
        | .panic => .panic
        | .nofuel => .nofuel
        | .items _ _ _ => .nofuel
        | .term pd _ r2 =>
          match decodeF ctx f (.one r2) with
          | .panic => .panic
          | .nofuel => .nofuel
          | .items _ _ _ => .nofuel
          | .term m _ r3 =>
            match decodeF ctx f (.one r3) with
            | .panic => .panic
            | .nofuel => .nofuel
            | .items _ _ _ => .nofuel
            | .term oldi _ r4 =>
              match decodeF ctx f (.one r4) with
              | .panic => .panic
              | .nofuel => .nofuel
              | .items _ _ _ => .nofuel
              | .term oldu _ r5 =>
                match decodeF ctx f (.many (beVal freeb) r5) with
                | .panic => .panic
                | .nofuel => .nofuel
                | .term _ _ _ => .nofuel
                | .items fvs e r6 =>
                  match m, oldi, oldu, pd with
                  | .atom ms, .int oi, .int ou, .pid p =>
                    .term (.funT 0 (List.replicate 16 0) 0 (beVal freeb) ms
                      (oi % 4294967296).toNat (ou % 4294967296).toNat p fvs) e r6
                  | _, _, _, _ => .panic
      else if t = 102 then
        -- ettPort: node (decode error discarded, assertion can panic),
        -- u32 id (error discarded), creation (error kept); term = p always
        match decodeF ctx f (.one rest) with
        | .panic => .panic
        | .nofuel => .nofuel
        | .items _ _ _ => .nofuel
        | .term a _ r1 =>
          match a with
          | .atom s =>
            let (idb, _, r2) := readPad 4 r1
            match ruint8 r2 with
            | (c, e, r3) => .term (.port ⟨s, beVal idb, c⟩) e r3
          | _ => .panic
      else if t = 82 then
        -- ettCacheRef: `Atom(*d.c.currentCache[b[0]])`: an out-of-range
        -- index or a nil slot pointer panics; note the cached bytes are
        -- wrapped as Atom directly (no newAtom)
        let (ib, e1, r1) := readPad 1 rest
        match e1 with
        | some e => .term .vnil (some e) r1
        | none =>
          match ctx.currentCache.get? (ib.getD 0 0) with
          | some (some s) => .term (.atom s) none r1
          | _ => .panic
      else
        -- default: ErrUnknownTerm
        .term .vnil (some (.unknownTerm t)) rest
  | _ + 1, .many 0 bs => .items [] none bs
  | f + 1, .many (k + 1) bs =>
    match decodeF ctx f (.one bs) with
    | .panic => .panic
    | .nofuel => .nofuel
    | .items _ _ _ => .nofuel
    | .term t none r =>
      match decodeF ctx f (.many k r) with
      | .items ts e r2 => .items (t :: ts) e r2
      | .panic => .panic
      | _ => .nofuel
    | .term t (some e) r => .items (t :: List.replicate k .vnil) (some e) r

/-- Entry point: `Decoder.Decode` on a byte stream.  The fuel bound is
ample: every recursive step of `decodeF` either consumes at least one byte
or immediately follows a step that did. -/
def runDecode (ctx : Context) (bs : List Nat) : DRes :=
  decodeF ctx (2 * bs.length + 2) (.one bs)

/-- `Encoder.writeAtom`: SMALL_ATOM for up to 255 bytes, ATOM for up to
65535, error beyond. -/
def writeAtom (atom : List Nat) : Except EncErr (List Nat) :=
  if atom.length ≤ 255 then
    .ok (115 :: atom.length :: atom)
  else if atom.length ≤ 65535 then
    .ok (100 :: atom.length / 256 % 256 :: atom.length % 256 :: atom)
  else .error (.atomTooBig atom.length)

/-- `Encoder.writeBigInt`: sign byte from `x.Sign() < 0`, then the reversed
(little-endian) minimal magnitude bytes, under a SMALL_BIG or LARGE_BIG
header. -/
def writeBigInt (x : Int) : Except EncErr (List Nat) :=
  let sign : Nat := if x < 0 then 1 else 0
  let bytes := (bigIntBytes x.natAbs).reverse
  if bytes.length ≤ 255 then
    .ok (110 :: bytes.length :: sign :: bytes)
  else if bytes.length ≤ 4294967295 then
    .ok (111 :: be4U bytes.length ++ sign :: bytes)
  else .error (.bigIntTooBig bytes.length)

/-- `Encoder.writeBool`: always a SMALL_ATOM "true" / "false" (the write
itself cannot fail against an in-memory sink). -/
def writeBool (b : Bool) : List Nat :=
  if b then [115, 4, 116, 114, 117, 101]
  else [115, 5, 102, 97, 108, 115, 101]

/-- `Encoder.Encode` applied to a boolean: the version byte followed by the
term encoding. -/
def encodeBool (b : Bool) : List Nat := 131 :: writeBool b

/-- `Encoder.writeInt` on the Go `int64` argument: SMALL_INTEGER for
0..255, INTEGER (two's-complement i32, big-endian) within the signed
32-bit range, otherwise `writeBigInt(big.NewInt(x))`. -/
def writeInt (x : Int) : Except EncErr (List Nat) :=
  if 0 ≤ x ∧ x ≤ 255 then
    .ok [97, x.toNat]
  else if -2147483648 ≤ x ∧ x ≤ 2147483647 then
    .ok (98 :: be4U (x % 4294967296).toNat)
  else writeBigInt x

/-- `Encoder.writePid`: the PID tag, the node atom, two zero bytes, the low
two bytes of Id, the four serial bytes, and the creation byte. -/
def writePid (p : Pid) : Except EncErr (List Nat) :=
  match writeAtom p.node with
  | .error e => .error e
  | .ok ab =>
    .ok (103 :: ab ++ [0, 0, p.id / 256 % 256, p.id % 256] ++ be4U p.serial
      ++ [p.creation])

/-! ### The typed decode bridge (`decode` / `Decode` with a typed target)

The bridge's `decode` dispatches on the target's reflected kind; for the
signed-integer kinds it parses an `int64` with `parseInt64` and checks
`reflect.Value.OverflowInt` before storing.  `parseInt64` itself is not
under `src/` (only its callers are), so it is modelled from the spec. -/

/-- The reflected target kinds of the bridge needed for the integer path. -/
inductive RKind where
  | int8
  | int16
  | int32
  | int64
  | intK
  deriving Repr, DecidableEq

/-- `reflect.Value.OverflowInt` made positive: whether the target kind can
represent the value (Go `int` is 64-bit on the targets at hand). -/
def intFits (k : RKind) (v : Int) : Bool :=
  match k with
  | .int8 => -128 ≤ v && v ≤ 127
  | .int16 => -32768 ≤ v && v ≤ 32767
  | .int32 => -2147483648 ≤ v && v ≤ 2147483647
  | .int64 => -9223372036854775808 ≤ v && v ≤ 9223372036854775807
  | .intK => -9223372036854775808 ≤ v && v ≤ 9223372036854775807

/-- Errors of the typed decode bridge (`OverflowError` carries the decoded
value and the target type; `VersionError` the offending byte). -/
inductive TErr where
  | overflow (value : Int) (target : RKind)
  | versionErr (b : Nat)
  | syntaxErr
  deriving Repr, DecidableEq

/-- Modelled from the spec: the `parseInt64` helper of the typed decode
bridge is not under `src/` (only its caller `decode` is).  Per §4.2 a
SMALL_INTEGER term is a u8 payload and an INTEGER term a big-endian i32
payload, both producing an integer; the helper returns the parsed value
and the number of bytes consumed, or a syntax error on any other shape. -/
def parseInt64 (b : List Nat) : Except TErr (Int × Nat) :=
  match b with
  | 97 :: x :: _ => .ok ((x : Int), 2)
  | 98 :: b3 :: b2 :: b1 :: b0 :: _ =>
    let u := beVal [b3, b2, b1, b0]
    .ok (if u < 2147483648 then (u : Int) else (u : Int) - 4294967296, 5)
  | _ => .error .syntaxErr

/-- The signed-integer arm of the bridge's `decode`: parse an `int64`, then
fail with `OverflowError{result, type}` when the target kind cannot
represent it. -/
def decodeInt (k : RKind) (b : List Nat) : Except TErr (Int × Nat) :=
  match parseInt64 b with
  | .error e => .error e
  | .ok (v, size) =>
    if intFits k v then .ok (v, size) else .error (.overflow v k)

/-- `Decode` (the framed entry of the typed bridge) specialized to a
signed-integer target: the first byte must be the format version 0x83,
then `decode` runs on the rest and the consumed size is incremented.
`Decode` indexes `b[0]` unconditionally, so an empty input is a runtime
panic, modelled as `none`. -/
def decodeTyped (k : RKind) (b : List Nat) : Option (Except TErr (Int × Nat)) :=
  match b with
  | [] => none
  | v :: rest =>
    some (if v = 131 then
      match decodeInt k rest with
      | .error e => .error e
      | .ok (x, size) => .ok (x, size + 1)
    else .error (.versionErr v))

/-! ### Supporting lemmas -/

theorem beVal_be4U (u : Nat) (h : u < 4294967296) : beVal (be4U u) = u := by
  simp only [beVal, be4U, List.foldl]
  omega

theorem readPad_exact (k : Nat) (xs rest : List Nat) (h : xs.length = k) :
    readPad k (xs ++ rest) = (xs, none, rest) := by
  subst h
  simp [readPad, List.take_left, List.drop_left]

theorem natBytesLEF_eq_of_le (n : Nat) : ∀ f g, n ≤ f → n ≤ g →
    natBytesLEF f n = natBytesLEF g n := by
  induction n using Nat.strong_induction_on with
  | _ n ih =>
    intro f g hf hg
    match n, f, g with
    | 0, 0, 0 => rfl
    | 0, 0, _ + 1 => rfl
    | 0, _ + 1, 0 => rfl
    | 0, _ + 1, _ + 1 => rfl
    | m + 1, f + 1, g + 1 =>
      rw [natBytesLEF, natBytesLEF]
      exact congrArg _ (ih ((m + 1) / 256) (Nat.div_lt_self (Nat.succ_pos m) (by omega))
        f g (by omega) (by omega))

theorem natBytesLE_succ (m : Nat) :
    natBytesLE (m + 1) = ((m + 1) % 256) :: natBytesLE ((m + 1) / 256) := by
  rw [natBytesLE, natBytesLE, natBytesLEF]
  exact congrArg _ (natBytesLEF_eq_of_le ((m + 1) / 256) m ((m + 1) / 256)
    (by omega) le_rfl)

theorem foldr_natBytesLE (n : Nat) :
    (natBytesLE n).foldr (fun x a => a * 256 + x) 0 = n := by
  induction n using Nat.strong_induction_on with
  | _ n ih =>
    match n with
    | 0 => rfl
    | m + 1 =>
      rw [natBytesLE_succ]
      simp only [List.foldr]
      rw [ih ((m + 1) / 256) (Nat.div_lt_self (Nat.succ_pos m) (by omega))]
      omega

theorem beVal_reverse_natBytesLE (n : Nat) :
    beVal (natBytesLE n).reverse = n := by
  rw [beVal, List.foldl_reverse]
  exact foldr_natBytesLE n

theorem natBytesLE_length_le (k : Nat) : ∀ n, n < 256 ^ k → (natBytesLE n).length ≤ k := by
  induction k with
  | zero =>
    intro n h
    interval_cases n
    simp [natBytesLE, natBytesLEF]
  | succ k ih =>
    intro n h
    match n with
    | 0 => simp [natBytesLE, natBytesLEF]
    | m + 1 =>
      rw [natBytesLE_succ]
      simp only [List.length_cons]
      have hd : (m + 1) / 256 < 256 ^ k := by
        rw [Nat.div_lt_iff_lt_mul (by omega)]
        calc m + 1 < 256 ^ (k + 1) := h
        _ = 256 ^ k * 256 := by ring
      exact Nat.succ_le_succ (ih _ hd)

theorem readPad_le (k : Nat) (bs : List Nat) (h : k ≤ bs.length) :
    readPad k bs = (bs.take k, none, bs.drop k) := by
  simp [readPad, h]

/-- The SMALL_ATOM / SMALL_ATOM_UTF8 decode branch on a well-formed
small-atom encoding. -/
theorem decodeF_smallAtom (ctx : Context) (f : Nat) (a rest : List Nat) :
    decodeF ctx (f + 1) (.one ((115 :: a.length :: a) ++ rest)) =
      .term (newAtom a) none rest := by
  have step : decodeF ctx (f + 1) (.one ((115 :: a.length :: a) ++ rest)) =
      .term (newAtom (readPad a.length (a ++ rest)).1) (readPad a.length (a ++ rest)).2.1
        (readPad a.length (a ++ rest)).2.2 := rfl
  rw [step, readPad_exact a.length a rest rfl]

/-- The ATOM / ATOM_UTF8 decode branch on a well-formed big-atom
encoding. -/
theorem decodeF_largeAtom (ctx : Context) (f : Nat) (a rest : List Nat)
    (h : a.length ≤ 65535) :
    decodeF ctx (f + 1)
      (.one ((100 :: a.length / 256 % 256 :: a.length % 256 :: a) ++ rest)) =
      .term (newAtom a) none rest := by
  simp only [List.cons_append]
  rw [decodeF]
  rw [if_neg (by decide : ¬((100:Nat) = 131))]
  rw [if_pos (by decide : (100:Nat) = 100 ∨ (100:Nat) = 118)]
  rw [show (a.length / 256 % 256 :: a.length % 256 :: (a ++ rest)) =
    ([a.length / 256 % 256, a.length % 256] ++ (a ++ rest)) from rfl]
  simp only [readPad_exact 2 [a.length / 256 % 256, a.length % 256] (a ++ rest) rfl]
  rw [show beVal [a.length / 256 % 256, a.length % 256] = a.length from by
    simp only [beVal, List.foldl]; omega]
  rw [readPad_exact a.length a rest rfl]

/-- Decoding the bytes that `writeAtom` emitted, at any sufficient fuel:
the decoder recovers `newAtom` of the original bytes and leaves the rest
of the stream untouched. -/
theorem decodeF_writeAtom (ctx : Context) (f : Nat) (a out rest : List Nat)
    (h : writeAtom a = .ok out) :
    decodeF ctx (f + 1) (.one (out ++ rest)) = .term (newAtom a) none rest := by
  unfold writeAtom at h
  split_ifs at h with h1 h2
  · cases h
    exact decodeF_smallAtom ctx f a rest
  · cases h
    exact decodeF_largeAtom ctx f a rest h2

/-- The SMALL_BIG decode branch on a payload of exactly the announced
size. -/
theorem decodeF_smallBig (ctx : Context) (f : Nat) (sz sg : Nat) (payload rest : List Nat)
    (h : payload.length = sz) :
    decodeF ctx (f + 1) (.one (110 :: sz :: sg :: (payload ++ rest))) =
      .term (readBigIntVal payload sg) none rest := by
  rw [decodeF]
  rw [if_neg (by decide : ¬((110:Nat) = 131))]
  rw [if_neg (by decide : ¬((110:Nat) = 100 ∨ (110:Nat) = 118))]
  rw [if_neg (by decide : ¬((110:Nat) = 115 ∨ (110:Nat) = 119))]
  rw [if_neg (by decide : ¬((110:Nat) = 109))]
  rw [if_neg (by decide : ¬((110:Nat) = 107))]
  rw [if_neg (by decide : ¬((110:Nat) = 99))]
  rw [if_neg (by decide : ¬((110:Nat) = 70))]
  rw [if_neg (by decide : ¬((110:Nat) = 97))]
  rw [if_neg (by decide : ¬((110:Nat) = 98))]
  rw [if_pos (rfl : (110:Nat) = 110)]
  rw [show (sz :: sg :: (payload ++ rest)) = ([sz, sg] ++ (payload ++ rest)) from rfl]
  rw [readPad_exact 2 [sz, sg] (payload ++ rest) rfl]
  simp only [List.getD_cons_zero, List.getD_cons_succ]
  rw [readPad_exact sz payload rest h]

/-- The LARGE_BIG decode branch on a payload of exactly the announced
size. -/
theorem decodeF_largeBig (ctx : Context) (f : Nat) (sg : Nat) (payload rest : List Nat)
    (h : payload.length ≤ 4294967295) :
    decodeF ctx (f + 1)
      (.one (111 :: (be4U payload.length ++ sg :: (payload ++ rest)))) =
      .term (readBigIntVal payload sg) none rest := by
  rw [decodeF]
  rw [if_neg (by decide : ¬((111:Nat) = 131))]
  rw [if_neg (by decide : ¬((111:Nat) = 100 ∨ (111:Nat) = 118))]
  rw [if_neg (by decide : ¬((111:Nat) = 115 ∨ (111:Nat) = 119))]
  rw [if_neg (by decide : ¬((111:Nat) = 109))]
  rw [if_neg (by decide : ¬((111:Nat) = 107))]
  rw [if_neg (by decide : ¬((111:Nat) = 99))]
  rw [if_neg (by decide : ¬((111:Nat) = 70))]
  rw [if_neg (by decide : ¬((111:Nat) = 97))]
  rw [if_neg (by decide : ¬((111:Nat) = 98))]
  rw [if_neg (by decide : ¬((111:Nat) = 110))]
  rw [if_pos (rfl : (111:Nat) = 111)]
  rw [show (be4U payload.length ++ sg :: (payload ++ rest)) =
    ((be4U payload.length ++ [sg]) ++ (payload ++ rest)) from by
      simp [be4U]]
  simp only [readPad_exact 5 (be4U payload.length ++ [sg]) (payload ++ rest) (by simp [be4U])]
  rw [show (be4U payload.length ++ [sg]).take 4 = be4U payload.length from by simp [be4U]]
  rw [show (be4U payload.length ++ [sg]).getD 4 0 = sg from by simp [be4U]]
  rw [beVal_be4U payload.length (by omega)]
  rw [readPad_exact payload.length payload rest rfl]

/-- The PID decode branch when the node slot decodes (error-free) to an
atom and the nine fixed bytes are present. -/
theorem decodeF_pid_atom (ctx : Context) (f : Nat) (bs : List Nat) (s : List Nat)
    (b9 rest : List Nat) (hc : decodeF ctx f (.one bs) = .term (.atom s) none (b9 ++ rest))
    (hlen : b9.length = 9) :
    decodeF ctx (f + 1) (.one (103 :: bs)) =
      .term (.pid ⟨s, beVal (b9.take 4), beVal ((b9.drop 4).take 4), b9.getD 8 0⟩)
        none rest := by
  rw [decodeF]
  rw [if_neg (by decide : ¬((103:Nat) = 131))]
  rw [if_neg (by decide : ¬((103:Nat) = 100 ∨ (103:Nat) = 118))]
  rw [if_neg (by decide : ¬((103:Nat) = 115 ∨ (103:Nat) = 119))]
  rw [if_neg (by decide : ¬((103:Nat) = 109))]
  rw [if_neg (by decide : ¬((103:Nat) = 107))]
  rw [if_neg (by decide : ¬((103:Nat) = 99))]
  rw [if_neg (by decide : ¬((103:Nat) = 70))]
  rw [if_neg (by decide : ¬((103:Nat) = 97))]
  rw [if_neg (by decide : ¬((103:Nat) = 98))]
  rw [if_neg (by decide : ¬((103:Nat) = 110))]
  rw [if_neg (by decide : ¬((103:Nat) = 111))]
  rw [if_neg (by decide : ¬((103:Nat) = 106))]
  rw [if_pos (rfl : (103:Nat) = 103)]
  rw [hc]
  simp only []
  rw [readPad_exact 9 b9 rest hlen]

/-- `readBigInt` applied to the payload `writeBigInt` emitted recovers the
original value (up to the narrowing). -/
theorem readBigIntVal_encode (z : Int) :
    readBigIntVal (natBytesLE z.natAbs) (if z < 0 then 1 else 0) = narrowBig z := by
  rw [readBigIntVal]
  simp only [beVal_reverse_natBytesLE]
  by_cases hz : z < 0
  · rw [if_pos hz, if_pos (by decide : (1:Nat) ≠ 0)]
    congr 1
    omega
  · rw [if_neg hz, if_neg (by simp : ¬((0:Nat) ≠ 0))]
    congr 1
    omega

/-- `Decoder.Decode` on a complete SMALL_BIG frame. -/
theorem runDecode_smallBig (ctx : Context) (sg : Nat) (payload : List Nat) :
    runDecode ctx (110 :: payload.length :: sg :: payload) =
      .term (readBigIntVal payload sg) none [] := by
  rw [runDecode]
  rw [show 2 * (110 :: payload.length :: sg :: payload).length + 2
      = 2 * (110 :: payload.length :: sg :: payload).length + 1 + 1 from by omega]
  rw [show (110 :: payload.length :: sg :: payload)
      = (110 :: payload.length :: sg :: (payload ++ [])) from by simp]
  exact decodeF_smallBig ctx _ payload.length sg payload [] rfl

/-- `Decoder.Decode` on a complete LARGE_BIG frame. -/
theorem runDecode_largeBig (ctx : Context) (sg : Nat) (payload : List Nat)
    (h : payload.length ≤ 4294967295) :
    runDecode ctx ((111 :: be4U payload.length) ++ (sg :: payload)) =
      .term (readBigIntVal payload sg) none [] := by
  rw [show ((111 :: be4U payload.length) ++ (sg :: payload))
      = (111 :: (be4U payload.length ++ sg :: (payload ++ []))) from by simp]
  rw [runDecode]
  rw [show 2 * (111 :: (be4U payload.length ++ sg :: (payload ++ []))).length + 2
      = 2 * (111 :: (be4U payload.length ++ sg :: (payload ++ []))).length + 1 + 1
      from by omega]
  exact decodeF_largeBig ctx _ sg payload [] h

/-- `Decoder.Decode` on an ATOM_CACHE_REF frame: panic on an out-of-range
index or nil slot pointer, the cached atom otherwise. -/
theorem runDecode_cacheRef (ctx : Context) (idx : Nat) (rest : List Nat) :
    runDecode ctx (82 :: idx :: rest) =
      (match ctx.currentCache.get? idx with
       | some (some s) => DRes.term (.atom s) none rest
       | some none => DRes.panic
       | none => DRes.panic) := by
  rw [runDecode]
  rw [show 2 * (82 :: idx :: rest).length + 2
      = 2 * (82 :: idx :: rest).length + 1 + 1 from by omega]
  rw [decodeF]
  rw [if_neg (by decide : ¬((82:Nat) = 131))]
  rw [if_neg (by decide : ¬((82:Nat) = 100 ∨ (82:Nat) = 118))]
  rw [if_neg (by decide : ¬((82:Nat) = 115 ∨ (82:Nat) = 119))]
  rw [if_neg (by decide : ¬((82:Nat) = 109))]
  rw [if_neg (by decide : ¬((82:Nat) = 107))]
  rw [if_neg (by decide : ¬((82:Nat) = 99))]
  rw [if_neg (by decide : ¬((82:Nat) = 70))]
  rw [if_neg (by decide : ¬((82:Nat) = 97))]
  rw [if_neg (by decide : ¬((82:Nat) = 98))]
  rw [if_neg (by decide : ¬((82:Nat) = 110))]
  rw [if_neg (by decide : ¬((82:Nat) = 111))]
  rw [if_neg (by decide : ¬((82:Nat) = 106))]
  rw [if_neg (by decide : ¬((82:Nat) = 103))]
  rw [if_neg (by decide : ¬((82:Nat) = 114))]
  rw [if_neg (by decide : ¬((82:Nat) = 101))]
  rw [if_neg (by decide : ¬((82:Nat) = 104))]
  rw [if_neg (by decide : ¬((82:Nat) = 105))]
  rw [if_neg (by decide : ¬((82:Nat) = 108))]
  rw [if_neg (by decide : ¬((82:Nat) = 77))]
  rw [if_neg (by decide : ¬((82:Nat) = 113))]
  rw [if_neg (by decide : ¬((82:Nat) = 112))]
  rw [if_neg (by decide : ¬((82:Nat) = 117))]
  rw [if_neg (by decide : ¬((82:Nat) = 102))]
  rw [if_pos (rfl : (82:Nat) = 82)]
  rw [show (idx :: rest) = ([idx] ++ rest) from rfl]
  simp only [readPad_exact 1 [idx] rest rfl]
  simp only [List.getD_cons_zero]
  cases hoc : ctx.currentCache.get? idx with
  | none => rfl
  | some osl =>
    cases osl with
    | none => rfl
    | some s => rfl

/-! ### Claim theorems -/

/-- C1 (code_bug evaluation): the claim says a LIST whose explicit tail
term is not the nil marker decodes to an improper list preserving that
tail.  On the wire term LIST N=1 with element 1 and tail `[2]` (a
non-nil list term), `Decoder.Decode` instead drops the tail entirely —
the trimming in the source fires on any tail of type `List`, not only on
the nil marker, even though its own comment says "remove nil element" —
returning the one-element list `[1]`. -/
theorem c1_list_tail_eval :
    runDecode ⟨[]⟩ [108, 0, 0, 0, 1, 97, 1, 108, 0, 0, 0, 1, 97, 2, 106] =
      .term (.list [.int 1]) none [] := rfl

/-- C2 (code_bug evaluation): the claim says a failing child decode
propagates the error with no partial value exposed.  On a SMALL_TUPLE of
arity 2 whose first element is the integer 1 and whose second element has
the unknown tag 255, `Decoder.Decode` returns the error together with the
partially filled tuple `(1, nil)` — `term = tuple` runs even after the
loop broke on the error. -/
theorem c2_tuple_partial_eval :
    runDecode ⟨[]⟩ [104, 2, 97, 1, 255] =
      .term (.tuple [.int 1, .vnil]) (some (.unknownTerm 255)) [] := rfl

/-- C3: for every big integer `z` (whose magnitude fits the LARGE_BIG u32
length field), decoding the encoding of `z` yields `z` again: narrowed to
the native 64-bit integer kind exactly when the narrowing round-trips,
and kept a big integer otherwise. -/
theorem c3_bigint_roundtrip (ctx : Context) (z : Int)
    (h : (natBytesLE z.natAbs).length ≤ 4294967295) :
    ∃ bs, writeBigInt z = .ok bs ∧
      runDecode ctx bs = .term (narrowBig z) none [] ∧
      (-9223372036854775808 ≤ z ∧ z ≤ 9223372036854775807 → narrowBig z = .int z) ∧
      (¬(-9223372036854775808 ≤ z ∧ z ≤ 9223372036854775807) →
        narrowBig z = .bigint z) := by
  have hn : ∀ hf : -9223372036854775808 ≤ z ∧ z ≤ 9223372036854775807,
      narrowBig z = .int z := fun hf => by rw [narrowBig, if_pos hf]
  have hb : ∀ _hf : ¬(-9223372036854775808 ≤ z ∧ z ≤ 9223372036854775807),
      narrowBig z = .bigint z := fun hf => by rw [narrowBig, if_neg hf]
  unfold writeBigInt
  simp only [bigIntBytes, List.reverse_reverse]
  by_cases hsmall : (natBytesLE z.natAbs).length ≤ 255
  · rw [if_pos hsmall]
    refine ⟨_, rfl, ?_, hn, hb⟩
    rw [runDecode_smallBig ctx _ (natBytesLE z.natAbs)]
    rw [readBigIntVal_encode]
  · rw [if_neg hsmall, if_pos h]
    refine ⟨_, rfl, ?_, hn, hb⟩
    rw [runDecode_largeBig ctx _ (natBytesLE z.natAbs) h]
    rw [readBigIntVal_encode]

/-- C3 witness: the round trip at `z = -300` (SMALL_BIG, two magnitude
bytes, sign 1), narrowing to the native integer kind. -/
theorem c3_bigint_roundtrip_witness :
    ∃ bs, writeBigInt (-300) = .ok bs ∧
      runDecode ⟨[]⟩ bs = .term (narrowBig (-300)) none [] ∧
      (-9223372036854775808 ≤ (-300:Int) ∧ (-300:Int) ≤ 9223372036854775807 →
        narrowBig (-300) = .int (-300)) ∧
      (¬(-9223372036854775808 ≤ (-300:Int) ∧ (-300:Int) ≤ 9223372036854775807) →
        narrowBig (-300) = .bigint (-300)) :=
  c3_bigint_roundtrip ⟨[]⟩ (-300) (by decide)

/-- C4: `writeInt` selects SMALL_INTEGER (2-byte term) for 0..255, INTEGER
(5-byte big-endian term) for the remaining signed 32-bit range, and
otherwise defers to `writeBigInt`, which emits a SMALL_BIG here (the
eight magnitude bytes of an int64 always fit the u8 length). -/
theorem c4_writeInt_tags (x : Int)
    (h : -9223372036854775808 ≤ x ∧ x ≤ 9223372036854775807) :
    (0 ≤ x ∧ x ≤ 255 →
      writeInt x = .ok [97, x.toNat] ∧ ([97, x.toNat] : List Nat).length = 2) ∧
    (¬(0 ≤ x ∧ x ≤ 255) → -2147483648 ≤ x ∧ x ≤ 2147483647 →
      writeInt x = .ok (98 :: be4U (x % 4294967296).toNat) ∧
      (98 :: be4U (x % 4294967296).toNat).length = 5) ∧
    (¬(-2147483648 ≤ x ∧ x ≤ 2147483647) →
      writeInt x = writeBigInt x ∧ ∃ tail, writeBigInt x = .ok (110 :: tail)) := by
  refine ⟨fun hs => ⟨?_, rfl⟩, fun hns h32 => ⟨?_, rfl⟩, fun hn32 => ⟨?_, ?_⟩⟩
  · rw [writeInt, if_pos hs]
  · rw [writeInt, if_neg hns, if_pos h32]
  · rw [writeInt, if_neg (fun hs => hn32 ⟨by omega, by omega⟩), if_neg hn32]
  · have habs : x.natAbs < 256 ^ 8 := by
      have h8 : (256:Nat) ^ 8 = 18446744073709551616 := by norm_num
      rw [h8]
      omega
    have hlen : (natBytesLE x.natAbs).length ≤ 8 := natBytesLE_length_le 8 _ habs
    rw [writeBigInt]
    simp only [bigIntBytes, List.reverse_reverse]
    rw [if_pos (by omega : (natBytesLE x.natAbs).length ≤ 255)]
    exact ⟨_, rfl⟩

/-- C4 witness: 300 lies outside 0..255 but inside the signed 32-bit
range, so it gets the 5-byte INTEGER form `98 00 00 01 2C`. -/
theorem c4_writeInt_tags_witness :
    writeInt 300 = .ok (98 :: be4U ((300:Int) % 4294967296).toNat) ∧
    (98 :: be4U ((300:Int) % 4294967296).toNat).length = 5 :=
  (c4_writeInt_tags 300 (by decide)).2.1 (by decide) (by decide)

/-- C5 (counterexample): the claim says an ATOM_CACHE_REF with an
unoccupied slot makes the reader fail by returning an error.  On the
input `52 00` with an empty current cache, `Decoder.Decode` instead
panics (`d.c.currentCache[0]` indexes out of range), an abnormal
termination rather than an error return. -/
theorem c5_cache_ref_counterexample : runDecode ⟨[]⟩ [82, 0] = .panic := rfl

/-- C5 (amended): for an ATOM_CACHE_REF whose u8 index designates an
unoccupied slot of the current cache (out of range, or holding a nil
pointer), the reader terminates abnormally (panics) rather than
returning an error; for an occupied slot it returns the cached atom at
that index. -/
theorem c5_cache_ref_amended (ctx : Context) (idx : Nat) (rest : List Nat)
    (_hb8 : idx < 256) :
    ((∀ s, ctx.currentCache.get? idx ≠ some (some s)) →
      runDecode ctx (82 :: idx :: rest) = .panic) ∧
    (∀ s, ctx.currentCache.get? idx = some (some s) →
      runDecode ctx (82 :: idx :: rest) = .term (.atom s) none rest) := by
  constructor
  · intro hun
    rw [runDecode_cacheRef]
    cases hoc : ctx.currentCache.get? idx with
    | none => rfl
    | some osl =>
      cases osl with
      | none => rfl
      | some s => exact absurd hoc (hun s)
  · intro s hs
    rw [runDecode_cacheRef, hs]

/-- C5 witness: a one-slot cache holding the atom "a"; index 0 is
occupied and resolves to that atom. -/
theorem c5_cache_ref_amended_witness :
    runDecode ⟨[some [97]]⟩ [82, 0, 5] = .term (.atom [97]) none [5] :=
  (c5_cache_ref_amended ⟨[some [97]]⟩ 0 [5] (by decide)).2 [97] rfl

/-- C6 (counterexample): the claim says a PID whose node slot decodes to
a non-atom makes `Decoder.Decode` fail with a distinct error rather than
terminating abnormally.  On a PID whose node slot holds the integer 5,
the bare type assertion `node.(Atom)` panics instead. -/
theorem c6_pid_node_counterexample :
    runDecode ⟨[]⟩ [103, 97, 5, 0, 0, 0, 0, 0, 0, 0, 0, 0] = .panic := rfl

/-- C6 (amended): whenever the PID node slot decodes error-free to a term
that is not an atom and the nine fixed trailing bytes are available,
`Decoder.Decode` terminates abnormally (panics on the failed type
assertion) instead of returning an error. -/
theorem c6_pid_node_amended (ctx : Context) (f : Nat) (bs rest : List Nat) (t : Term)
    (hdec : decodeF ctx f (.one bs) = .term t none rest)
    (hna : ∀ s, t ≠ .atom s) (hr : 9 ≤ rest.length) :
    decodeF ctx (f + 1) (.one (103 :: bs)) = .panic := by
  rw [decodeF]
  rw [if_neg (by decide : ¬((103:Nat) = 131))]
  rw [if_neg (by decide : ¬((103:Nat) = 100 ∨ (103:Nat) = 118))]
  rw [if_neg (by decide : ¬((103:Nat) = 115 ∨ (103:Nat) = 119))]
  rw [if_neg (by decide : ¬((103:Nat) = 109))]
  rw [if_neg (by decide : ¬((103:Nat) = 107))]
  rw [if_neg (by decide : ¬((103:Nat) = 99))]
  rw [if_neg (by decide : ¬((103:Nat) = 70))]
  rw [if_neg (by decide : ¬((103:Nat) = 97))]
  rw [if_neg (by decide : ¬((103:Nat) = 98))]
  rw [if_neg (by decide : ¬((103:Nat) = 110))]
  rw [if_neg (by decide : ¬((103:Nat) = 111))]
  rw [if_neg (by decide : ¬((103:Nat) = 106))]
  rw [if_pos (rfl : (103:Nat) = 103)]
  rw [hdec]
  -- the default-arm splitter equation of the node match is discharged by
  -- `hna`, collapsing the non-atom case to the panic
  simp only []
  rw [readPad_le 9 rest hr]

/-- C6 witness: the node slot decodes to the integer 5 and nine bytes
follow, so the decoder panics. -/
theorem c6_pid_node_amended_witness :
    decodeF ⟨[]⟩ 2 (.one (103 :: [97, 5, 0, 0, 0, 0, 0, 0, 0, 0, 0])) = .panic :=
  c6_pid_node_amended ⟨[]⟩ 1 [97, 5, 0, 0, 0, 0, 0, 0, 0, 0, 0]
    [0, 0, 0, 0, 0, 0, 0, 0, 0] (.int 5) rfl
    (fun s h => Term.noConfusion h) (by decide)

/-- C7 (spec-modelled `parseInt64`): whenever the parsed integer value
cannot be represented by the signed-integer target kind, the typed decode
bridge fails with an overflow error carrying the decoded value and the
target type.  In particular INTEGER −2³¹ into an 8-bit signed target. -/
theorem c7_typed_overflow (k : RKind) (bs : List Nat) (v : Int) (sz : Nat)
    (hp : parseInt64 bs = .ok (v, sz)) (ho : intFits k v = false) :
    decodeTyped k (131 :: bs) = some (.error (.overflow v k)) := by
  simp [decodeTyped, decodeInt, hp, ho]

/-- C7 witness: decoding the framed INTEGER −2³¹ into an 8-bit signed
target overflows. -/
theorem c7_typed_overflow_witness :
    decodeTyped .int8 [131, 98, 128, 0, 0, 0] =
      some (.error (.overflow (-2147483648) .int8)) :=
  c7_typed_overflow .int8 [98, 128, 0, 0, 0] (-2147483648) 5 rfl rfl

/-- C8: `writeAtom` uses the SMALL_ATOM tag iff the byte length is at most
255, the ATOM tag iff it is between 256 and 65535, and fails iff it
exceeds 65535. -/
theorem c8_writeAtom_tags (a : List Nat) :
    ((∃ tail, writeAtom a = .ok (115 :: tail)) ↔ a.length ≤ 255) ∧
    ((∃ tail, writeAtom a = .ok (100 :: tail)) ↔
      (255 < a.length ∧ a.length ≤ 65535)) ∧
    ((∃ e, writeAtom a = .error e) ↔ 65535 < a.length) := by
  unfold writeAtom
  by_cases h1 : a.length ≤ 255
  · rw [if_pos h1]
    refine ⟨⟨fun _ => h1, fun _ => ⟨_, rfl⟩⟩, ⟨?_, ?_⟩, ⟨?_, ?_⟩⟩
    · rintro ⟨tail, ht⟩
      simp at ht
    · rintro ⟨hgt, _⟩
      omega
    · rintro ⟨e, he⟩
      simp at he
    · intro hgt
      omega
  · rw [if_neg h1]
    by_cases h2 : a.length ≤ 65535
    · rw [if_pos h2]
      refine ⟨⟨?_, fun hle => absurd hle h1⟩, ⟨fun _ => ⟨by omega, h2⟩, fun _ => ⟨_, rfl⟩⟩,
        ⟨?_, fun hgt => absurd (by omega : a.length ≤ 65535) (by omega)⟩⟩
      · rintro ⟨tail, ht⟩
        simp at ht
      · rintro ⟨e, he⟩
        simp at he
    · rw [if_neg h2]
      refine ⟨⟨?_, fun hle => absurd hle h1⟩, ⟨?_, fun hr => absurd hr.2 h2⟩,
        ⟨fun _ => by omega, fun _ => ⟨_, rfl⟩⟩⟩
      · rintro ⟨tail, ht⟩
        simp at ht
      · rintro ⟨tail, ht⟩
        simp at ht

/-- C8 witness: the one-byte atom "a" is emitted with the SMALL_ATOM
tag. -/
theorem c8_writeAtom_tags_witness :
    ∃ tail, writeAtom [97] = .ok (115 :: tail) :=
  ((c8_writeAtom_tags [97]).1).mpr (by decide)

/-- C9: `encode(true)` emits exactly the bytes
`83 73 04 74 72 75 65` (131 115 4 116 114 117 101), and for every boolean
the round trip through `Decoder.Decode` returns the boolean itself (the
atoms "true"/"false" decode to the boolean variant). -/
theorem c9_bool_roundtrip (ctx : Context) :
    encodeBool true = [131, 115, 4, 116, 114, 117, 101] ∧
    (∀ b, runDecode ctx (encodeBool b) = .term (.bool b) none []) := by
  refine ⟨rfl, fun b => ?_⟩
  cases b
  · rfl
  · rfl

/-- C10 (counterexample): the claim says every Pid round-trips (with Id
taken mod 2^16).  The Pid whose node is the atom "true" encodes fine, but
on decode the node slot becomes the boolean `true` (via `newAtom`), so
the type assertion `node.(Atom)` panics and no Pid is produced. -/
theorem c10_pid_counterexample :
    writePid ⟨bTrue, 1, 2, 3⟩ =
      .ok [103, 115, 4, 116, 114, 117, 101, 0, 0, 0, 1, 0, 0, 0, 2, 3] ∧
    runDecode ⟨[]⟩ [103, 115, 4, 116, 114, 117, 101, 0, 0, 0, 1, 0, 0, 0, 2, 3] =
      .panic := ⟨rfl, rfl⟩

/-- C10 (amended): for every Pid with wire-width fields whose node atom is
neither "true" nor "false" and has at most 65535 bytes, decoding the
encoding yields a Pid with equal Node, Serial, and Creation, and with Id
reduced mod 2^16 (so every such Pid with Id ≤ 65535 round-trips
exactly). -/
theorem c10_pid_roundtrip_amended (ctx : Context) (p : Pid)
    (h1 : p.node ≠ bTrue) (h2 : p.node ≠ bFalse) (hlen : p.node.length ≤ 65535)
    (_hid : p.id < 4294967296) (hs : p.serial < 4294967296) (_hcr : p.creation < 256) :
    ∃ bs, writePid p = .ok bs ∧
      runDecode ctx bs =
        .term (.pid ⟨p.node, p.id % 65536, p.serial, p.creation⟩) none [] := by
  have hab : ∃ ab, writeAtom p.node = .ok ab := by
    rw [writeAtom]
    by_cases g1 : p.node.length ≤ 255
    · rw [if_pos g1]
      exact ⟨_, rfl⟩
    · rw [if_neg g1, if_pos hlen]
      exact ⟨_, rfl⟩
  obtain ⟨ab, hab⟩ := hab
  have hpid : writePid p =
      .ok (103 :: ab ++ [0, 0, p.id / 256 % 256, p.id % 256] ++ be4U p.serial
        ++ [p.creation]) := by
    rw [writePid, hab]
  refine ⟨_, hpid, ?_⟩
  have hnode : newAtom p.node = .atom p.node := by
    rw [newAtom, if_neg h1, if_neg h2]
  have hb9len : (([0, 0, p.id / 256 % 256, p.id % 256]
      ++ (be4U p.serial ++ [p.creation]) : List Nat)).length = 9 := by
    simp [be4U]
  have hshape : (103 :: ab ++ [0, 0, p.id / 256 % 256, p.id % 256] ++ be4U p.serial
      ++ [p.creation] : List Nat)
      = 103 :: (ab ++ (([0, 0, p.id / 256 % 256, p.id % 256]
        ++ (be4U p.serial ++ [p.creation])) ++ [])) := by
    simp
  rw [hshape, runDecode]
  rw [show 2 * (103 :: (ab ++ (([0, 0, p.id / 256 % 256, p.id % 256]
      ++ (be4U p.serial ++ [p.creation])) ++ []))).length + 2
      = 2 * (103 :: (ab ++ (([0, 0, p.id / 256 % 256, p.id % 256]
      ++ (be4U p.serial ++ [p.creation])) ++ []))).length + 1 + 1 from by omega]
  have hchild := decodeF_writeAtom ctx
    (2 * (103 :: (ab ++ (([0, 0, p.id / 256 % 256, p.id % 256]
      ++ (be4U p.serial ++ [p.creation])) ++ []))).length)
    p.node ab (([0, 0, p.id / 256 % 256, p.id % 256]
      ++ (be4U p.serial ++ [p.creation])) ++ []) hab
  rw [hnode] at hchild
  have hmain := decodeF_pid_atom ctx _ _ p.node
    ([0, 0, p.id / 256 % 256, p.id % 256] ++ (be4U p.serial ++ [p.creation])) []
    hchild hb9len
  rw [hmain]
  have ht4 : ([0, 0, p.id / 256 % 256, p.id % 256]
      ++ (be4U p.serial ++ [p.creation]) : List Nat).take 4
      = [0, 0, p.id / 256 % 256, p.id % 256] := by
    simp [be4U]
  have hd4 : (([0, 0, p.id / 256 % 256, p.id % 256]
      ++ (be4U p.serial ++ [p.creation]) : List Nat).drop 4).take 4
      = be4U p.serial := by
    simp [be4U]
  have hg8 : ([0, 0, p.id / 256 % 256, p.id % 256]
      ++ (be4U p.serial ++ [p.creation]) : List Nat).getD 8 0 = p.creation := by
    simp [be4U]
  rw [ht4, hd4, hg8, beVal_be4U p.serial hs]
  rw [show beVal [0, 0, p.id / 256 % 256, p.id % 256] = p.id % 65536 from by
    simp only [beVal, List.foldl]
    omega]

/-- C10 witness: a Pid with node "a", Id 70000 (above 2^16), Serial 5,
Creation 9 decodes back with Id 70000 mod 65536. -/
theorem c10_pid_roundtrip_amended_witness :
    ∃ bs, writePid ⟨[97], 70000, 5, 9⟩ = .ok bs ∧
      runDecode ⟨[]⟩ bs =
        .term (.pid ⟨[97], 70000 % 65536, 5, 9⟩) none [] :=
  c10_pid_roundtrip_amended ⟨[]⟩ ⟨[97], 70000, 5, 9⟩ (by decide) (by decide)
    (by decide) (by decide) (by decide) (by decide)

end Etf
